import Mathlib

/-!
Verification of the Roxi engagement-decision engine.

Shallow embedding of the repository's decision core:
- `src/sleep.js` (activity window, speaker set, dormancy) — the file itself is
  not under `src/src/`, but its full text is in the provided sources
  (`src/unnamed/part_001`), so the definitions below are translated from it.
- `src/utils.js` (input sanitisation, transcript helpers).
- `src/index.js` (eligibility policy, directed-address detection, the
  per-channel advisory lock, the message handler and the proactive tick).

Conventions of the embedding:
- JS timestamps (`Date.now()`, `msg.createdTimestamp`) are `Int` milliseconds.
- `Map.get(k)` is a function `Nat → Option α`; the JS idiom `get(k) || d`
  (which treats both `undefined` and `0` as missing) is `jsOrInt`.
- Every `Date.now()` read inside one synchronous handler invocation is
  modelled as a single `now : Int` supplied by the environment.
- Results of awaited external calls (history fetch, reply generation,
  transport send, probability rolls, admin-command dispatch) are inputs in
  an `Ext` record; fallible calls are `Except Unit _`.
-/

namespace Roxi

/-- JS `v || d` on a `Map.get` result: `undefined` and `0` both fall back. -/
def jsOrInt (v : Option Int) (d : Int) : Int :=
  match v with
  | some x => if x = 0 then d else x
  | none => d

@[simp] theorem jsOrInt_some_self (t : Int) : jsOrInt (some t) t = t := by
  unfold jsOrInt
  split <;> simp_all

@[simp] theorem jsOrInt_none (d : Int) : jsOrInt none d = d := rfl

/-- JS `String.prototype.toLowerCase()` (characters are mapped pointwise;
`Char.toLower` lowers the ASCII range, which covers the configuration and
content this code compares). -/
def toLowerStr (s : String) : String := String.mk (s.data.map Char.toLower)

def isWs (c : Char) : Bool := c = ' ' || c = '\t' || c = '\n' || c = '\r'

/-- JS `String.prototype.trim()`: strip whitespace from both ends. -/
def trimStr (s : String) : String :=
  String.mk (((s.data.dropWhile isWs).reverse.dropWhile isWs).reverse)

/-- JS `new Set(list)` iterated back to a list: first occurrences, in
insertion order. -/
def uniqueUids (l : List Nat) : List Nat :=
  l.foldl (fun acc u => if u ∈ acc then acc else acc ++ [u]) []

/-! ## `src/sleep.js` (source: src/unnamed/part_001) -/

/-- One element of `activityWindow`: `{ ts, uid }`. -/
structure ActEntry where
  ts : Int
  uid : Nat
deriving Repr, DecidableEq

/-- Module state of `sleep.js`: `lastHumanActivity`, `activityWindow`,
`speakerSet` (the JS `Set` is modelled as a deduplicated list). -/
structure SleepSt where
  lastHumanActivity : Nat → Option Int
  activityWindow : Nat → List ActEntry
  speakerSet : Nat → List Nat

/-- Fresh module state: all three maps empty. -/
def emptySleepSt : SleepSt :=
  { lastHumanActivity := fun _ => none
    activityWindow := fun _ => []
    speakerSet := fun _ => [] }

/-- Embeds `const now = ts || Date.now()` in `recordActivity`. -/
def effTs (ts wallNow : Int) : Int := if ts = 0 then wallNow else ts

/-- Embeds `recordActivity(channelId, uid, ts, options)` from `sleep.js`: prune the
window to `ts >= cutoff`, append the new entry, rebuild the speaker set,
return the pruned window. `lookbackMin` is `options.MOMENTUM_LOOKBACK_MIN`,
`wallNow` stands for the `Date.now()` fallback used when `ts` is falsy. -/
def recordActivity (s : SleepSt) (channelId uid : Nat) (ts wallNow lookbackMin : Int) :
    List ActEntry × SleepSt :=
  let now := effTs ts wallNow
  let cutoff := now - lookbackMin * 60000
  let arr := s.activityWindow channelId
  let pruned := (arr.filter (fun e => decide (cutoff ≤ e.ts))) ++ [⟨now, uid⟩]
  let rebuilt := uniqueUids (pruned.map (fun e => e.uid))
  (pruned,
   { s with
     activityWindow := fun c => if c = channelId then pruned else s.activityWindow c
     speakerSet := fun c => if c = channelId then rebuilt else s.speakerSet c })

/-- Embeds `windowStats(channelId)` from `sleep.js`. -/
structure Stats where
  count : Nat
  speakers : Nat

def windowStats (s : SleepSt) (channelId : Nat) : Stats :=
  { count := (s.activityWindow channelId).length
    speakers := (s.speakerSet channelId).length }

/-- Embeds `channelIsActive(channelId, options)` from `sleep.js`. -/
def channelIsActive (s : SleepSt) (channelId : Nat) (minMsgs minSpeakers : Nat) : Bool :=
  (decide (minMsgs ≤ (windowStats s channelId).count)) &&
  (decide (minSpeakers ≤ (windowStats s channelId).speakers))

/-- Embeds `isChannelSleeping(channelId, opts)` from `sleep.js`:
`Date.now() - (lastHumanActivity.get(channelId) || 0) >= SLEEP_AFTER_MIN * 60_000`. -/
def isChannelSleeping (s : SleepSt) (channelId : Nat) (sleepAfterMin now : Int) : Bool :=
  decide (sleepAfterMin * 60000 ≤ now - jsOrInt (s.lastHumanActivity channelId) 0)

/-! ## `src/utils.js` -/

/-- JS `String.prototype.slice(0, n)` on the character sequence. -/
def takeChars (s : String) (n : Nat) : String := String.mk (s.data.take n)

/-- Tests whether the first list is a prefix of the second (on characters). -/
def prefixChars : List Char → List Char → Bool
  | [], _ => true
  | _ :: _, [] => false
  | p :: ps, h :: hs => (p = h) && prefixChars ps hs

def containsSubAux (pat : List Char) : List Char → Bool
  | [] => prefixChars pat []
  | h :: hs => prefixChars pat (h :: hs) || containsSubAux pat hs

/-- Substring containment (JS `String.prototype.includes`), used to embed the
regex alternatives. -/
def containsSub (hay pat : String) : Bool := containsSubAux pat.data hay.data

/-- The denylist regex `BANNED_RE` of `utils.js`:
`/(password|api[_\- ]?key|token|ssn|secret|private key|seed phrase)/i`.
Case-insensitivity is embedded by lowercasing the subject (the alternatives
are ASCII); `api[_\- ]?key` expands to its four concrete alternatives. -/
def bannedTest (t : String) : Bool :=
  let lo := toLowerStr t
  containsSub lo "password" || containsSub lo "apikey" || containsSub lo "api_key" ||
  containsSub lo "api-key" || containsSub lo "api key" || containsSub lo "token" ||
  containsSub lo "ssn" || containsSub lo "secret" || containsSub lo "private key" ||
  containsSub lo "seed phrase"

/-- Embeds `sanitizeInput(text, maxLen)` from `utils.js`. -/
def sanitizeInput (text : String) (maxLen : Nat) : String :=
  if text = "" then ""
  else
    let t := takeChars text maxLen
    if bannedTest t then "" else t

/-! ## `src/index.js`: configuration, state, eligibility policy -/

/-- The configuration constants of `index.js` that the decision core reads
(each field embeds the env-derived constant of the same name). -/
structure Config where
  sleepAfterMin : Int
  wakeMsgEnabled : Bool
  wakeAnnounceSec : Int
  momentumLookbackMin : Int
  momentumMinMsgs : Nat
  minDistinctSpeakers : Nat
  minSpeakersPublic : Nat
  minSpeakersThread : Nat
  minReplyGapMs : Int
  userGapMs : Int
  maxContextMsgs : Nat
  maxInputChars : Nat
  keyword : String
  lingerMs : Int
  allowedChannels : List String

/-- The mutable module state of `index.js` plus the `sleep.js` module state. -/
structure BotSt where
  hardMute : Bool
  lastReplyPerChannel : Nat → Option Int
  inFlight : Nat → Bool
  recentEngagement : Nat → Option Int
  lastRoxiMsgIdPerChannel : Nat → Option Nat
  sleep : SleepSt

/-- The fields of a Discord channel object the decision core reads. -/
structure Channel where
  id : Nat
  name : String
  isThread : Bool
  isTextBased : Bool

/-- The fields of an incoming Discord message the decision core reads. -/
structure Msg where
  authorIsBot : Bool
  inGuild : Bool
  authorId : Nat
  createdTimestamp : Int
  cleanContent : String
  mentionsRoxi : Bool
  referenceMessageId : Option Nat

/-- Embeds `allowedByChannelList(channel)` from `index.js`. -/
def allowedByChannelList (cfg : Config) (ch : Channel) : Bool :=
  cfg.allowedChannels.isEmpty || cfg.allowedChannels.contains (toLowerStr ch.name)

/-- Embeds `canEvenConsiderSpeaking(channel, lastUserTs)` from `index.js` (lines
128-135), with the `Date.now()` reads threaded as `now`. -/
def canEvenConsiderSpeaking (cfg : Config) (s : BotSt) (ch : Channel)
    (lastUserTs now : Int) : Bool :=
  if s.hardMute then false
  else if !(allowedByChannelList cfg ch) then false
  else if isChannelSleeping s.sleep ch.id cfg.sleepAfterMin now then false
  else
    let last := (s.lastReplyPerChannel ch.id).getD 0
    (decide (cfg.minReplyGapMs ≤ now - last)) && (decide (cfg.userGapMs ≤ now - lastUserTs))

/-- Embeds `conversationEligible(channel)` from `index.js` (lines 137-149). -/
def conversationEligible (cfg : Config) (s : BotSt) (ch : Channel) : Bool :=
  let isThread := ch.isThread
  let speakers := (windowStats s.sleep ch.id).speakers
  if !isThread && speakers < cfg.minSpeakersPublic then false
  else if isThread && speakers < cfg.minSpeakersThread then false
  else channelIsActive s.sleep ch.id cfg.momentumMinMsgs cfg.minDistinctSpeakers

/-- Embeds `maybeAnnounceWake(channel)` from `index.js` (lines 151-156); the result
is whether the announcement send was attempted. -/
def maybeAnnounceWake (cfg : Config) (s : BotSt) (ch : Channel) (now : Int) : Bool :=
  if !cfg.wakeMsgEnabled then false
  else
    let last := jsOrInt (s.sleep.lastHumanActivity ch.id) 0
    decide (now - last ≤ cfg.wakeAnnounceSec * 1000)

/-- Embeds `withChannelLock(channelId, fn)` from `index.js` (lines 158-163). The
body's value is `Except Unit (Option Nat)`: `.error ()` models a thrown
exception, `.ok (some id)` a completed send of message `id`, `.ok none` a
normal return without a send; the early `return;` of a held lock yields
`.ok none` (JS `undefined`). The `finally` clause is the unconditional
`inFlight` reset on the result state. -/
def withChannelLock (s : BotSt) (channelId : Nat)
    (fn : BotSt → Except Unit (Option Nat) × BotSt) :
    Except Unit (Option Nat) × BotSt :=
  if s.inFlight channelId then (Except.ok none, s)
  else
    let s1 := { s with inFlight := fun c => if c = channelId then true else s.inFlight c }
    let res := fn s1
    (res.1, { res.2 with inFlight := fun c => if c = channelId then false else res.2.inFlight c })

/-! ## Transcript construction (lines 387-394 / 438-445 / 282-289) -/

/-- The fields of a fetched history message the transcript build reads. -/
structure HistMsg where
  authorIsBot : Bool
  authorName : String
  cleanContent : String
  createdTimestamp : Int

/-- One element of `trimmed`. -/
structure TrimmedMsg where
  author : String
  content : String
  ts : Int
  isBot : Bool
deriving Repr, DecidableEq

/-- JS `Array.prototype.slice(-n)`: the last `n` elements; `slice(-0)` is
`slice(0)`, the whole array. -/
def takeLast (l : List α) (n : Nat) : List α :=
  if n = 0 then l else l.drop (l.length - n)

/-- The `.filter(m => m.content || !m.isBot)` stage of the transcript build:
a message is kept when its sanitised content is non-empty or its author is
not a bot. -/
def transcriptFilter (l : List TrimmedMsg) : List TrimmedMsg :=
  l.filter (fun m => !(m.content == "") || !m.isBot)

/-- The `trimmed` transcript of the three decision paths: sort the fetched
history by timestamp, keep the last `MAX_CONTEXT_MSGS`, map through
`sanitizeInput`, and filter. A failed fetch (`null`) yields `[]`. The same
block appears verbatim in the directed, organic and proactive paths. -/
def buildTrimmed (cfg : Config) (history : Option (List HistMsg)) : List TrimmedMsg :=
  let sorted := match history with
    | some h => h.mergeSort (fun a b => a.createdTimestamp ≤ b.createdTimestamp)
    | none => []
  (takeLast sorted cfg.maxContextMsgs).map (fun m =>
    { author := if m.authorIsBot then "bot" else m.authorName
      content := sanitizeInput m.cleanContent cfg.maxInputChars
      ts := m.createdTimestamp
      isBot := m.authorIsBot })
  |> transcriptFilter

/-! ## The send attempt shared by the three decision paths -/

/-- The body passed to `withChannelLock` on all three decision paths (lines
298-318, 401-425 and 455-479 are identical up to log fields): await the
generator, and when the reply is non-empty, await the transport send and only
then update `lastReplyPerChannel`, `recentEngagement` and
`lastRoxiMsgIdPerChannel`. A generation or send failure propagates as a
thrown exception with no state change. -/
def attemptBody (chId : Nat) (now : Int) (genReply : Except Unit String)
    (sendResult : Except Unit Nat) (st : BotSt) :
    Except Unit (Option Nat) × BotSt :=
  match genReply with
  | .error _ => (.error (), st)
  | .ok reply =>
    if trimStr reply ≠ "" then
      match sendResult with
      | .error _ => (.error (), st)
      | .ok msgId =>
        (.ok (some msgId),
         { st with
           lastReplyPerChannel := fun c => if c = chId then some now else st.lastReplyPerChannel c
           recentEngagement := fun c => if c = chId then some now else st.recentEngagement c
           lastRoxiMsgIdPerChannel := fun c => if c = chId then some msgId else st.lastRoxiMsgIdPerChannel c })
    else (.ok none, st)

/-! ## The `MessageCreate` handler (lines 345-484) -/

/-- Outcome of `handleAdmin(msg)` (lines 336-342): not handled, handled with
no state change, or handled with a mute update (each handled case returns
from the handler). -/
inductive AdminRes where
  | notHandled
  | handledKeep
  | handledSetMute (b : Bool)
deriving Repr, DecidableEq

/-- Results of the awaited external calls and random draws made during one
handler invocation, plus the wall clock `now` for its `Date.now()` reads. -/
structure Ext where
  now : Int
  adminRes : AdminRes
  canSend : Bool
  history : Option (List HistMsg)
  roll : Bool
  genReply : Except Unit String
  sendResult : Except Unit Nat

/-- Which decision path produced a reply. -/
inductive Path where
  | directed
  | organic
deriving Repr, DecidableEq

structure SentInfo where
  path : Path
  msgId : Nat
deriving Repr, DecidableEq

/-- Observable outcome of one handler invocation: the resulting module state,
whether the wake announcement was attempted, and the reply sent (if any). -/
structure HandlerOut where
  state : BotSt
  wakeAnnounced : Bool
  sent : Option SentInfo

/-- Lines 354-362 of the handler: record activity, overwrite
`lastHumanActivity` with the incoming message's own timestamp, and extend the
linger window when the message lands within 10s of Roxi's last reply. -/
def handlerPre (cfg : Config) (s0 : BotSt) (ch : Channel) (msg : Msg) (now : Int) : BotSt :=
  let sl1 := (recordActivity s0.sleep ch.id msg.authorId msg.createdTimestamp now
      cfg.momentumLookbackMin).2
  let sl2 := { sl1 with
    lastHumanActivity := fun c => if c = ch.id then some msg.createdTimestamp
      else sl1.lastHumanActivity c }
  let s1 := { s0 with sleep := sl2 }
  let lastRoxi := (s1.lastReplyPerChannel ch.id).getD 0
  if now - lastRoxi < 10000 then
    { s1 with recentEngagement := fun c => if c = ch.id then some now
        else s1.recentEngagement c }
  else s1

/-- Lines 368-380: the directed-address detection
(`mentioned || keywordTrigger || isReplyToRoxi || withinLinger`). -/
def directedToRoxi (cfg : Config) (s : BotSt) (ch : Channel) (msg : Msg) (now : Int) : Bool :=
  let content := toLowerStr msg.cleanContent
  let keywordTrigger := (!(cfg.keyword == "")) && containsSub content cfg.keyword
  let isReplyToRoxi := msg.referenceMessageId.isSome &&
    (s.lastRoxiMsgIdPerChannel ch.id == msg.referenceMessageId)
  let lastEngaged := (s.recentEngagement ch.id).getD 0
  let withinLinger := decide (now - lastEngaged < cfg.lingerMs)
  msg.mentionsRoxi || keywordTrigger || isReplyToRoxi || withinLinger

/-- The `MessageCreate` handler (lines 345-484) at the decision level. -/
def handleMessage (cfg : Config) (s0 : BotSt) (ch : Channel) (msg : Msg) (ext : Ext) :
    HandlerOut :=
  if msg.authorIsBot || !msg.inGuild then ⟨s0, false, none⟩
  else match ext.adminRes with
  | .handledKeep => ⟨s0, false, none⟩
  | .handledSetMute b => ⟨{ s0 with hardMute := b }, false, none⟩
  | .notHandled =>
    let s2 := handlerPre cfg s0 ch msg ext.now
    let wake := if !(isChannelSleeping s2.sleep ch.id cfg.sleepAfterMin ext.now)
      then maybeAnnounceWake cfg s2 ch ext.now else false
    let lastUserTs := jsOrInt (s2.sleep.lastHumanActivity ch.id) msg.createdTimestamp
    if directedToRoxi cfg s2 ch msg ext.now then
      if !(canEvenConsiderSpeaking cfg s2 ch lastUserTs ext.now) then ⟨s2, wake, none⟩
      else if !ext.canSend then ⟨s2, wake, none⟩
      else
        let _trimmed := buildTrimmed cfg ext.history
        let res := withChannelLock s2 ch.id
          (attemptBody ch.id ext.now ext.genReply ext.sendResult)
        ⟨res.2, wake,
         match res.1 with
         | .ok (some msgId) => some ⟨Path.directed, msgId⟩
         | _ => none⟩
    else
      if !(canEvenConsiderSpeaking cfg s2 ch lastUserTs ext.now) then ⟨s2, wake, none⟩
      else if !(conversationEligible cfg s2 ch) then ⟨s2, wake, none⟩
      else if !ext.canSend then ⟨s2, wake, none⟩
      else
        let trimmed := buildTrimmed cfg ext.history
        if trimmed.isEmpty then ⟨s2, wake, none⟩
        else if !ext.roll then ⟨s2, wake, none⟩
        else
          let res := withChannelLock s2 ch.id
            (attemptBody ch.id ext.now ext.genReply ext.sendResult)
          ⟨res.2, wake,
           match res.1 with
           | .ok (some msgId) => some ⟨Path.organic, msgId⟩
           | _ => none⟩

/-! ## The proactive tick (lines 258-326) -/

/-- The per-channel eligibility test of `eligibleChannelsForProactive`
(lines 258-270): text-based non-thread channels passing base eligibility,
conversation eligibility and the send-permission check. -/
def eligibleForProactive (cfg : Config) (s : BotSt) (ch : Channel)
    (canSend : Bool) (now : Int) : Bool :=
  ch.isTextBased && !ch.isThread &&
  canEvenConsiderSpeaking cfg s ch (jsOrInt (s.sleep.lastHumanActivity ch.id) 0) now &&
  conversationEligible cfg s ch &&
  canSend

/-- The per-channel body of the proactive tick (lines 279-320): a probability
draw, the transcript build with its non-empty requirement, then the same
locked send attempt as the message paths. `ext.roll` is
`Math.random() <= PROACTIVE_PROBABILITY` (a failed draw `continue`s). -/
def proactiveAttempt (cfg : Config) (s : BotSt) (ch : Channel) (ext : Ext) :
    Except Unit (Option Nat) × BotSt :=
  if !ext.roll then (.ok none, s)
  else
    let trimmed := buildTrimmed cfg ext.history
    if trimmed.isEmpty then (.ok none, s)
    else withChannelLock s ch.id (attemptBody ch.id ext.now ext.genReply ext.sendResult)

/-! ## Interleaving model for the cooldown invariant (C3)

Each decision attempt (organic, directed or proactive) follows the same
shape in `index.js`: a synchronous eligibility check (`canEvenConsiderSpeaking`,
which reads `lastReplyPerChannel`), then awaited calls (history fetch,
generation), then `withChannelLock` around the send, which updates
`lastReplyPerChannel` only after a successful send. Because the JS event
loop can interleave other attempts at every `await`, an attempt's
eligibility check and its send are separated in time.

The model below abstracts one channel-indexed system: `check` fires only
when the cooldown conjunct of `canEvenConsiderSpeaking` held (the other
conjuncts can only suppress attempts, which the nondeterminism already
allows), `lockAcquire`/`lockDrop` are the two branches of `withChannelLock`,
`sendOk` is a successful send with its bookkeeping, and `abort` is a
generation/send failure or an empty reply. Each pending attempt remembers
the time of its eligibility check and the cooldown timestamp it observed. -/

/-- A pending decision attempt: its channel, whether it holds the per-channel
lock, the time its eligibility check ran, and the value of
`lastReplyPerChannel.get(ch) || 0` that the check observed. -/
structure AttemptInfo where
  ch : Nat
  locked : Bool
  checkTime : Int
  obs : Int
deriving Repr, DecidableEq

/-- System state: the wall clock, the cooldown map and lock map of
`index.js`, the pending attempts (keyed by an attempt identifier), and the
chronological log of successful sends `(channel, time)`. -/
structure Sys where
  time : Int
  lastReply : Nat → Option Int
  inFlight : Nat → Bool
  atts : Nat → Option AttemptInfo
  sends : List (Nat × Int)

/-- Initial system: no cooldowns recorded, no locks held, no attempts. -/
def sysInit (t0 : Int) : Sys :=
  { time := t0
    lastReply := fun _ => none
    inFlight := fun _ => false
    atts := fun _ => none
    sends := [] }

/-- One scheduler step of the interleaving model. -/
inductive Step (gap : Int) : Sys → Sys → Prop where
  | tick (s : Sys) (d : Int) (hd : 0 ≤ d) :
      Step gap s { s with time := s.time + d }
  | check (s : Sys) (i ch : Nat)
      (hfresh : s.atts i = none)
      (helig : gap ≤ s.time - (s.lastReply ch).getD 0) :
      Step gap s { s with
        atts := fun j => if j = i then some ⟨ch, false, s.time, (s.lastReply ch).getD 0⟩
          else s.atts j }
  | lockAcquire (s : Sys) (i : Nat) (a : AttemptInfo)
      (hatt : s.atts i = some a) (hwait : a.locked = false)
      (hfree : s.inFlight a.ch = false) :
      Step gap s { s with
        inFlight := fun c => if c = a.ch then true else s.inFlight c
        atts := fun j => if j = i then some { a with locked := true } else s.atts j }
  | lockDrop (s : Sys) (i : Nat) (a : AttemptInfo)
      (hatt : s.atts i = some a) (hwait : a.locked = false)
      (hheld : s.inFlight a.ch = true) :
      Step gap s { s with atts := fun j => if j = i then none else s.atts j }
  | sendOk (s : Sys) (i : Nat) (a : AttemptInfo)
      (hatt : s.atts i = some a) (hlock : a.locked = true) :
      Step gap s { s with
        lastReply := fun c => if c = a.ch then some s.time else s.lastReply c
        inFlight := fun c => if c = a.ch then false else s.inFlight c
        atts := fun j => if j = i then none else s.atts j
        sends := s.sends ++ [(a.ch, s.time)] }
  | abort (s : Sys) (i : Nat) (a : AttemptInfo)
      (hatt : s.atts i = some a) (hlock : a.locked = true) :
      Step gap s { s with
        inFlight := fun c => if c = a.ch then false else s.inFlight c
        atts := fun j => if j = i then none else s.atts j }

/-- Reachability in the interleaving model. -/
abbrev SysReaches (gap : Int) : Sys → Sys → Prop := Relation.ReflTransGen (Step gap)

/-- Claim C3 as stated: in every reachable state, any two sends in the same
channel (in log order) are at least `gap` apart. -/
def claimC3 (gap t0 : Int) : Prop :=
  ∀ s, SysReaches gap (sysInit t0) s →
    ∀ pre mid post ch t1 t2,
      s.sends = pre ++ (ch, t1) :: mid ++ (ch, t2) :: post →
      t1 + gap ≤ t2

/-- Invariant: every pending attempt passed its check at least `gap` after
the cooldown timestamp it observed, and no later than the current time. -/
def SysInv (gap : Int) (s : Sys) : Prop :=
  ∀ i a, s.atts i = some a → a.obs + gap ≤ a.checkTime ∧ a.checkTime ≤ s.time

/-! ## Statement-side helper definitions -/

/-- The value component of the locked attempt, as a function of the external
results only (the body's returned value never reads the state). -/
def attemptVal : Except Unit String → Except Unit Nat → Except Unit (Option Nat)
  | .error _, _ => .error ()
  | .ok r, sres =>
    if trimStr r ≠ "" then
      match sres with
      | .error _ => .error ()
      | .ok id => .ok (some id)
    else .ok none

/-- The generator produced a reply with non-empty trim. -/
def genNonempty : Except Unit String → Bool
  | .ok r => !(trimStr r == "")
  | .error _ => false

/-- The transport send resolved successfully. -/
def sendOkB : Except Unit Nat → Bool
  | .ok _ => true
  | .error _ => false

/-! ## Sequences of `recordActivity` calls (C4) -/

/-- One `recordActivity(ch, uid, ts, …)` call; `wall` is the `Date.now()`
value backing the `ts || Date.now()` fallback of that call. -/
structure RecCall where
  ch : Nat
  uid : Nat
  ts : Int
  wall : Int

/-- Run a sequence of `recordActivity` calls from a state. -/
def applyCalls (s : SleepSt) (lookbackMin : Int) (calls : List RecCall) : SleepSt :=
  calls.foldl (fun st c => (recordActivity st c.ch c.uid c.ts c.wall lookbackMin).2) s

/-- The window returned by the last call of the sequence `calls ++ [c]`. -/
def lastWindow (lookbackMin : Int) (calls : List RecCall) (c : RecCall) : List ActEntry :=
  (recordActivity (applyCalls emptySleepSt lookbackMin calls) c.ch c.uid c.ts c.wall
    lookbackMin).1

/-- Claim C4 as stated, for a given `lookback` (minutes): for every sequence
of calls, the window returned by the latest call contains no entry older
than `lookback`, all retained entries satisfy the strict bound
`now - entry.ts < lookback`, and entries are monotonically non-decreasing. -/
def claimC4 (lookbackMin : Int) : Prop :=
  ∀ (calls : List RecCall) (c : RecCall),
    (∀ e ∈ lastWindow lookbackMin calls c,
        ¬ (lookbackMin * 60000 < effTs c.ts c.wall - e.ts))
    ∧ (∀ e ∈ lastWindow lookbackMin calls c,
        effTs c.ts c.wall - e.ts < lookbackMin * 60000)
    ∧ List.Pairwise (fun a b : ActEntry => a.ts ≤ b.ts) (lastWindow lookbackMin calls c)

/-- All stored windows are sorted by timestamp. -/
def winSorted (s : SleepSt) : Prop :=
  ∀ chId, List.Pairwise (fun a b : ActEntry => a.ts ≤ b.ts) (s.activityWindow chId)

/-- All stored window entries are at most `b`. -/
def winLe (s : SleepSt) (b : Int) : Prop :=
  ∀ chId, ∀ e ∈ s.activityWindow chId, e.ts ≤ b

/-! ## Concrete instances used by witnesses and counterexamples -/

def cfgC2 : Config :=
  { sleepAfterMin := 60, wakeMsgEnabled := false, wakeAnnounceSec := 120,
    momentumLookbackMin := 20, momentumMinMsgs := 10, minDistinctSpeakers := 3,
    minSpeakersPublic := 3, minSpeakersThread := 3, minReplyGapMs := 180000,
    userGapMs := 20000, maxContextMsgs := 25, maxInputChars := 800,
    keyword := "roxi", lingerMs := 120000, allowedChannels := [] }

def chC2 : Channel :=
  { id := 0, name := "general", isThread := false, isTextBased := true }

/-- Twelve recent messages from two distinct speakers. -/
def winC2 : List ActEntry :=
  [⟨990000, 1⟩, ⟨990500, 2⟩, ⟨991000, 1⟩, ⟨991500, 2⟩, ⟨992000, 1⟩, ⟨992500, 2⟩,
   ⟨993000, 1⟩, ⟨993500, 2⟩, ⟨994000, 1⟩, ⟨994500, 2⟩, ⟨995000, 1⟩, ⟨995500, 2⟩]

def stC2 : BotSt :=
  { hardMute := false
    lastReplyPerChannel := fun _ => none
    inFlight := fun _ => false
    recentEngagement := fun _ => none
    lastRoxiMsgIdPerChannel := fun _ => none
    sleep := { lastHumanActivity := fun _ => some 995500
               activityWindow := fun _ => winC2
               speakerSet := fun _ => [1, 2] } }

def msgC2mention : Msg :=
  { authorIsBot := false, inGuild := true, authorId := 1, createdTimestamp := 1000000,
    cleanContent := "what do you think", mentionsRoxi := true, referenceMessageId := none }

def msgC2plain : Msg := { msgC2mention with mentionsRoxi := false }

def extC2 : Ext :=
  { now := 1020000, adminRes := .notHandled, canSend := true, history := none,
    roll := true, genReply := .ok "sure, count me in!", sendResult := .ok 42 }

/-- A state whose channel-0 lock is held. -/
def stLocked : BotSt := { stC2 with inFlight := fun _ => true }

/-- A body that throws after mutating the state, to exercise the cleanup path. -/
def fnThrow : BotSt → Except Unit (Option Nat) × BotSt :=
  fun st => (Except.error (), { st with hardMute := true })

/-- Interleaving-model witness states: the initial system at time 1000000,
then one attempt checked for channel 0, then that attempt holding the lock. -/
def c3w0 : Sys := sysInit 1000000

def c3w1 : Sys :=
  { c3w0 with
    atts := fun j => if j = 0 then some ⟨0, false, 1000000, 0⟩ else c3w0.atts j }

def c3w2 : Sys :=
  { c3w1 with
    inFlight := fun c => if c = 0 then true else c3w1.inFlight c
    atts := fun j => if j = 0 then some ⟨0, true, 1000000, 0⟩ else c3w1.atts j }

theorem sysInv_init (gap t0 : Int) : SysInv gap (sysInit t0) := by
  intro i a h
  simp [sysInit] at h

theorem sysInv_step {gap : Int} {s s2 : Sys} (hs : SysInv gap s) (h : Step gap s s2) :
    SysInv gap s2 := by
  cases h with
  | tick d hd =>
    intro i a ha
    rcases hs i a ha with ⟨h1, h2⟩
    exact ⟨h1, by simp only; omega⟩
  | check i ch hfresh helig =>
    intro j a ha
    have ha2 : (if j = i then some (⟨ch, false, s.time, (s.lastReply ch).getD 0⟩ : AttemptInfo)
        else s.atts j) = some a := ha
    by_cases hj : j = i
    · rw [if_pos hj] at ha2
      injection ha2 with hv
      subst hv
      exact ⟨by simp only; omega, by simp only; omega⟩
    · rw [if_neg hj] at ha2
      exact hs j a ha2
  | lockAcquire i a0 hatt hwait hfree =>
    intro j a ha
    have ha2 : (if j = i then some { a0 with locked := true } else s.atts j) = some a := ha
    by_cases hj : j = i
    · rw [if_pos hj] at ha2
      injection ha2 with hv
      subst hv
      exact hs i a0 hatt
    · rw [if_neg hj] at ha2
      exact hs j a ha2
  | lockDrop i a0 hatt hwait hheld =>
    intro j a ha
    have ha2 : (if j = i then none else s.atts j) = some a := ha
    by_cases hj : j = i
    · rw [if_pos hj] at ha2; exact absurd ha2 (by simp)
    · rw [if_neg hj] at ha2
      exact hs j a ha2
  | sendOk i a0 hatt hlock =>
    intro j a ha
    have ha2 : (if j = i then none else s.atts j) = some a := ha
    by_cases hj : j = i
    · rw [if_pos hj] at ha2; exact absurd ha2 (by simp)
    · rw [if_neg hj] at ha2
      exact hs j a ha2
  | abort i a0 hatt hlock =>
    intro j a ha
    have ha2 : (if j = i then none else s.atts j) = some a := ha
    by_cases hj : j = i
    · rw [if_pos hj] at ha2; exact absurd ha2 (by simp)
    · rw [if_neg hj] at ha2
      exact hs j a ha2

theorem sysInv_reaches {gap t0 : Int} {s : Sys}
    (h : SysReaches gap (sysInit t0) s) : SysInv gap s := by
  induction h with
  | refl => exact sysInv_init gap t0
  | tail _ hstep ih => exact sysInv_step ih hstep

/-! ## Helper lemmas -/

@[simp] theorem jsOrInt_some_zero (t : Int) : jsOrInt (some t) 0 = t := by
  show (if t = 0 then (0 : Int) else t) = t
  split <;> omega

theorem attemptBody_state_noSend (chId : Nat) (now : Int) (gen : Except Unit String)
    (sres : Except Unit Nat) (st : BotSt)
    (h : ∀ r id, gen = Except.ok r → trimStr r ≠ "" → sres ≠ Except.ok id) :
    (attemptBody chId now gen sres st).2 = st := by
  unfold attemptBody
  cases gen with
  | error e => rfl
  | ok r =>
    by_cases ht : trimStr r = ""
    · simp [ht]
    · cases sres with
      | error e => simp [ht]
      | ok id => exact absurd rfl (h r id rfl ht)

theorem lock_noSend_state (s : BotSt) (chId : Nat) (now : Int) (gen : Except Unit String) :
    ((withChannelLock s chId (attemptBody chId now gen (Except.error ()))).2).lastReplyPerChannel
        = s.lastReplyPerChannel
    ∧ ((withChannelLock s chId (attemptBody chId now gen (Except.error ()))).2).recentEngagement
        = s.recentEngagement
    ∧ ((withChannelLock s chId (attemptBody chId now gen (Except.error ()))).2).lastRoxiMsgIdPerChannel
        = s.lastRoxiMsgIdPerChannel := by
  have hb : ∀ (st : BotSt),
      (attemptBody chId now gen (Except.error ()) st).2 = st := by
    intro st
    exact attemptBody_state_noSend chId now gen (Except.error ()) st
      (fun r id _ _ hok => by cases hok)
  unfold withChannelLock
  by_cases h : s.inFlight chId = true
  · simp [h]
  · simp only [h, Bool.false_eq_true, if_false, if_neg]
    rw [hb]
    exact ⟨rfl, rfl, rfl⟩

/-! ## Claim theorems (first group) -/

/-- C1: `canEvenConsiderSpeaking(channel, lastUserTs)` evaluated at time `now`
returns true iff all five gates hold — mute unset, allow-list pass, channel
not sleeping, `now - lastReply ≥ minReplyGap` and `now - lastUserTs ≥
minUserGap` — and it is false whenever the mute flag is set, regardless of
all other state. The function is a pure read of the state (its type takes
`BotSt` and returns `Bool`), so a failing gate mutates nothing. -/
theorem C1_base_eligibility (cfg : Config) (s : BotSt) (ch : Channel) (lastUserTs now : Int) :
    (canEvenConsiderSpeaking cfg s ch lastUserTs now = true ↔
      (s.hardMute = false ∧ allowedByChannelList cfg ch = true ∧
       isChannelSleeping s.sleep ch.id cfg.sleepAfterMin now = false ∧
       cfg.minReplyGapMs ≤ now - (s.lastReplyPerChannel ch.id).getD 0 ∧
       cfg.userGapMs ≤ now - lastUserTs))
    ∧ canEvenConsiderSpeaking cfg { s with hardMute := true } ch lastUserTs now = false := by
  constructor
  · unfold canEvenConsiderSpeaking
    by_cases h1 : s.hardMute = true <;>
      by_cases h2 : allowedByChannelList cfg ch = true <;>
        by_cases h3 : isChannelSleeping s.sleep ch.id cfg.sleepAfterMin now = true <;>
          simp [h1, h2, h3]
  · simp [canEvenConsiderSpeaking]

/-- C5: for a channel with stored `lastHumanActivity = T`, `isChannelSleeping`
returns true iff `now - T ≥ sleepThreshold`; the boundary `now - T =
sleepThreshold` counts as sleeping. -/
theorem C5_sleep_predicate (s : SleepSt) (chId : Nat) (T now sleepAfterMin : Int)
    (hstored : s.lastHumanActivity chId = some T) :
    (isChannelSleeping s chId sleepAfterMin now = true ↔ sleepAfterMin * 60000 ≤ now - T)
    ∧ (now - T = sleepAfterMin * 60000 → isChannelSleeping s chId sleepAfterMin now = true) := by
  have hj : jsOrInt (s.lastHumanActivity chId) 0 = T := by
    rw [hstored]; exact jsOrInt_some_zero T
  constructor
  · simp [isChannelSleeping, hj]
  · intro hb
    simp [isChannelSleeping, hj]
    omega

/-- Witness for C5 at a concrete input: stored timestamp 100, a one-minute
threshold and `now` exactly on the boundary. -/
theorem C5_sleep_predicate_witness :
    isChannelSleeping
      { emptySleepSt with lastHumanActivity := fun _ => some 100 } 0 1 60100 = true :=
  (C5_sleep_predicate { emptySleepSt with lastHumanActivity := fun _ => some 100 }
    0 100 60100 1 rfl).2 (by decide)

/-- C6: the per-channel lock discipline of `withChannelLock` — a second
attempt while the flag is set returns immediately with no body invocation
and no state change (so of two simultaneous attempts only the lock holder
can send); and when the lock is acquired, the flag is cleared on the result
state on every exit of the body, normal or thrown, whatever the body did. -/
theorem C6_channel_lock (s : BotSt) (chId : Nat)
    (fn fn2 fn3 : BotSt → Except Unit (Option Nat) × BotSt) :
    (s.inFlight chId = true → withChannelLock s chId fn = (Except.ok none, s))
    ∧ (s.inFlight chId = false → ((withChannelLock s chId fn).2).inFlight chId = false)
    ∧ (s.inFlight chId = false →
        withChannelLock s chId (fun st => withChannelLock st chId fn2) =
          withChannelLock s chId (fun st => withChannelLock st chId fn3)) := by
  refine ⟨?_, ?_, ?_⟩
  · intro h
    simp [withChannelLock, h]
  · intro h
    simp [withChannelLock, h]
  · intro h
    simp [withChannelLock, h]

/-- Every branch of the handler leaves the state either as the pre-phase
state or as the result of the locked send attempt. -/
theorem handleMessage_state_eq (cfg : Config) (s0 : BotSt) (ch : Channel) (msg : Msg)
    (ext : Ext) (hbot : msg.authorIsBot = false) (hguild : msg.inGuild = true)
    (hadmin : ext.adminRes = AdminRes.notHandled) :
    (handleMessage cfg s0 ch msg ext).state = handlerPre cfg s0 ch msg ext.now
    ∨ (handleMessage cfg s0 ch msg ext).state =
        (withChannelLock (handlerPre cfg s0 ch msg ext.now) ch.id
          (attemptBody ch.id ext.now ext.genReply ext.sendResult)).2 := by
  simp only [handleMessage, hbot, hguild, hadmin, Bool.false_or, Bool.not_true,
    Bool.false_eq_true, if_false]
  repeat' split
  all_goals first | exact Or.inl rfl | exact Or.inr rfl

/-- C7: send-failure atomicity. On a transport failure the locked attempt
body leaves the state untouched; a state change by the attempt body implies
the generation succeeded with a non-empty reply and the send resolved
successfully; and at the level of the message handler (directed and organic
paths) and of the proactive tick, a failed send leaves `lastReplyPerChannel`,
`recentEngagement` and `lastRoxiMsgIdPerChannel` exactly as they were before
the attempt. -/
theorem C7_send_failure_atomicity :
    (∀ (chId : Nat) (now : Int) (gen : Except Unit String) (st : BotSt),
      (attemptBody chId now gen (Except.error ()) st).2 = st)
    ∧ (∀ (chId : Nat) (now : Int) (gen : Except Unit String) (sres : Except Unit Nat)
        (st : BotSt), (attemptBody chId now gen sres st).2 ≠ st →
        ∃ r id, gen = Except.ok r ∧ trimStr r ≠ "" ∧ sres = Except.ok id)
    ∧ (∀ (cfg : Config) (s0 : BotSt) (ch : Channel) (msg : Msg) (ext : Ext),
        msg.authorIsBot = false → msg.inGuild = true →
        ext.adminRes = AdminRes.notHandled → ext.sendResult = Except.error () →
        ((handleMessage cfg s0 ch msg ext).state.lastReplyPerChannel
            = (handlerPre cfg s0 ch msg ext.now).lastReplyPerChannel
         ∧ (handleMessage cfg s0 ch msg ext).state.recentEngagement
            = (handlerPre cfg s0 ch msg ext.now).recentEngagement
         ∧ (handleMessage cfg s0 ch msg ext).state.lastRoxiMsgIdPerChannel
            = (handlerPre cfg s0 ch msg ext.now).lastRoxiMsgIdPerChannel))
    ∧ (∀ (cfg : Config) (s : BotSt) (ch : Channel) (ext : Ext),
        ext.sendResult = Except.error () →
        ((proactiveAttempt cfg s ch ext).2.lastReplyPerChannel = s.lastReplyPerChannel
         ∧ (proactiveAttempt cfg s ch ext).2.recentEngagement = s.recentEngagement
         ∧ (proactiveAttempt cfg s ch ext).2.lastRoxiMsgIdPerChannel
            = s.lastRoxiMsgIdPerChannel)) := by
  refine ⟨?_, ?_, ?_, ?_⟩
  · intro chId now gen st
    exact attemptBody_state_noSend chId now gen (Except.error ()) st
      (fun r id _ _ hok => by cases hok)
  · intro chId now gen sres st hne
    by_contra hno
    push_neg at hno
    exact hne (attemptBody_state_noSend chId now gen sres st
      (fun r id hg ht hok => by
        exact absurd (hno r id hg ht) (by simp [hok])))
  · intro cfg s0 ch msg ext hbot hguild hadmin hsend
    rcases handleMessage_state_eq cfg s0 ch msg ext hbot hguild hadmin with heq | heq
    · rw [heq]; exact ⟨rfl, rfl, rfl⟩
    · rw [heq, hsend]
      exact lock_noSend_state (handlerPre cfg s0 ch msg ext.now) ch.id ext.now ext.genReply
  · intro cfg s ch ext hsend
    unfold proactiveAttempt
    by_cases hr : ext.roll = true
    · simp only [hr, Bool.not_true, Bool.false_eq_true, if_false]
      by_cases he : (buildTrimmed cfg ext.history).isEmpty = true
      · simp [he]
      · simp only [he, Bool.false_eq_true, if_false]
        rw [hsend]
        exact lock_noSend_state s ch.id ext.now ext.genReply
    · simp [hr]

/-- C8: `sanitizeInput` returns the empty string when the first `maxLen`
characters match the credential denylist, and otherwise the text truncated
to at most `maxLen` characters; the transcript filter drops a message iff
it is bot-authored with empty sanitised content, keeping scrubbed
human-authored messages as empty text. -/
theorem C8_transcript_scrubbing :
    (∀ (text : String) (maxLen : Nat), bannedTest (takeChars text maxLen) = true →
        sanitizeInput text maxLen = "")
    ∧ (∀ (text : String) (maxLen : Nat), bannedTest (takeChars text maxLen) = false →
        sanitizeInput text maxLen = takeChars text maxLen
        ∧ (sanitizeInput text maxLen).length ≤ maxLen)
    ∧ (∀ (l : List TrimmedMsg) (m : TrimmedMsg), m ∈ l →
        (m ∈ transcriptFilter l ↔ ¬(m.isBot = true ∧ m.content = ""))) := by
  refine ⟨?_, ?_, ?_⟩
  · intro text maxLen h
    unfold sanitizeInput
    by_cases he : text = ""
    · simp [he]
    · simp [he, h]
  · intro text maxLen h
    have hres : sanitizeInput text maxLen = takeChars text maxLen := by
      unfold sanitizeInput
      by_cases he : text = ""
      · subst he
        simp [takeChars]
      · simp [he, h]
    refine ⟨hres, ?_⟩
    rw [hres]
    show (text.data.take maxLen).length ≤ maxLen
    exact List.length_take_le maxLen text.data
  · intro l m hm
    unfold transcriptFilter
    rw [List.mem_filter]
    simp only [hm, true_and]
    cases hb : m.isBot <;> by_cases hc : m.content = "" <;> simp [hb, hc]

/-! ## Handler lemmas for C2, C9, C10 -/

theorem handlerPre_lastHuman (cfg : Config) (s0 : BotSt) (ch : Channel) (msg : Msg)
    (now : Int) :
    (handlerPre cfg s0 ch msg now).sleep.lastHumanActivity ch.id
      = some msg.createdTimestamp := by
  simp only [handlerPre]
  split <;> simp

@[simp] theorem handlerPre_hardMute (cfg : Config) (s0 : BotSt) (ch : Channel) (msg : Msg)
    (now : Int) : (handlerPre cfg s0 ch msg now).hardMute = s0.hardMute := by
  simp only [handlerPre]
  split <;> rfl

@[simp] theorem handlerPre_lastReply (cfg : Config) (s0 : BotSt) (ch : Channel) (msg : Msg)
    (now : Int) :
    (handlerPre cfg s0 ch msg now).lastReplyPerChannel = s0.lastReplyPerChannel := by
  simp only [handlerPre]
  split <;> rfl

@[simp] theorem handlerPre_inFlight (cfg : Config) (s0 : BotSt) (ch : Channel) (msg : Msg)
    (now : Int) : (handlerPre cfg s0 ch msg now).inFlight = s0.inFlight := by
  simp only [handlerPre]
  split <;> rfl

@[simp] theorem handlerPre_lastRoxiId (cfg : Config) (s0 : BotSt) (ch : Channel) (msg : Msg)
    (now : Int) :
    (handlerPre cfg s0 ch msg now).lastRoxiMsgIdPerChannel = s0.lastRoxiMsgIdPerChannel := by
  simp only [handlerPre]
  split <;> rfl

theorem attemptBody_fst (chId : Nat) (now : Int) (gen : Except Unit String)
    (sres : Except Unit Nat) (st : BotSt) :
    (attemptBody chId now gen sres st).1 = attemptVal gen sres := by
  unfold attemptBody attemptVal
  cases gen with
  | error e => rfl
  | ok r =>
    by_cases ht : trimStr r = ""
    · simp [ht]
    · cases sres <;> simp [ht]

theorem lock_attempt_fst (s : BotSt) (chId : Nat) (now : Int) (gen : Except Unit String)
    (sres : Except Unit Nat) :
    (withChannelLock s chId (attemptBody chId now gen sres)).1 =
      (if s.inFlight chId then Except.ok none else attemptVal gen sres) := by
  unfold withChannelLock
  by_cases h : s.inFlight chId = true
  · simp [h]
  · simp [h, attemptBody_fst]

theorem canEven_congr (cfg : Config) (s s2 : BotSt) (ch : Channel) (lastUserTs now : Int)
    (h1 : s.hardMute = s2.hardMute)
    (h2 : s.lastReplyPerChannel ch.id = s2.lastReplyPerChannel ch.id)
    (h3 : s.sleep.lastHumanActivity ch.id = s2.sleep.lastHumanActivity ch.id) :
    canEvenConsiderSpeaking cfg s ch lastUserTs now =
      canEvenConsiderSpeaking cfg s2 ch lastUserTs now := by
  unfold canEvenConsiderSpeaking isChannelSleeping
  rw [h1, h2, h3]

theorem directedToRoxi_congr (cfg : Config) (s s2 : BotSt) (ch : Channel) (msg : Msg)
    (now : Int) (h1 : s.recentEngagement ch.id = s2.recentEngagement ch.id)
    (h2 : s.lastRoxiMsgIdPerChannel ch.id = s2.lastRoxiMsgIdPerChannel ch.id) :
    directedToRoxi cfg s ch msg now = directedToRoxi cfg s2 ch msg now := by
  unfold directedToRoxi
  rw [h1, h2]

/-- Replacing the momentum state (`activityWindow`, `speakerSet`) does not
change the engagement map the pre-phase produces. -/
theorem handlerPre_sleepSwap_recent (cfg : Config) (s0 : BotSt) (W : Nat → List ActEntry)
    (K : Nat → List Nat) (ch : Channel) (msg : Msg) (now : Int) :
    (handlerPre cfg
        { s0 with sleep := { s0.sleep with activityWindow := W, speakerSet := K } }
        ch msg now).recentEngagement
      = (handlerPre cfg s0 ch msg now).recentEngagement := by
  simp only [handlerPre]
  by_cases hc : now - (s0.lastReplyPerChannel ch.id).getD 0 < 10000 <;> simp [hc]

/-- On any directed event, the handler's reply decision in closed form: base
eligibility and send permission gate the locked attempt, whose value is
`attemptVal` of the external generation and send results. -/
theorem directed_sent_eq (cfg : Config) (s0 : BotSt) (ch : Channel) (msg : Msg) (ext : Ext)
    (hbot : msg.authorIsBot = false) (hguild : msg.inGuild = true)
    (hadmin : ext.adminRes = AdminRes.notHandled)
    (hdir : directedToRoxi cfg (handlerPre cfg s0 ch msg ext.now) ch msg ext.now = true) :
    (handleMessage cfg s0 ch msg ext).sent =
      (if canEvenConsiderSpeaking cfg (handlerPre cfg s0 ch msg ext.now) ch
            msg.createdTimestamp ext.now && ext.canSend then
         (match (if s0.inFlight ch.id then Except.ok none
                 else attemptVal ext.genReply ext.sendResult) with
          | Except.ok (some id) => some ⟨Path.directed, id⟩
          | _ => none)
       else none) := by
  have hlast : jsOrInt ((handlerPre cfg s0 ch msg ext.now).sleep.lastHumanActivity ch.id)
      msg.createdTimestamp = msg.createdTimestamp := by
    rw [handlerPre_lastHuman]
    exact jsOrInt_some_self msg.createdTimestamp
  simp only [handleMessage, hbot, hguild, hadmin, Bool.false_or, Bool.not_true,
    Bool.false_eq_true, if_false, hdir, if_true, hlast]
  rw [lock_attempt_fst, handlerPre_inFlight]
  by_cases hc : canEvenConsiderSpeaking cfg (handlerPre cfg s0 ch msg ext.now) ch
      msg.createdTimestamp ext.now = true
  · by_cases hs : ext.canSend = true
    · simp [hc, hs]
    · simp [hc, hs]
  · simp [hc]

/-- C9: a fresh triggering message blocks its own reply through the
user-gap gate — the handler overwrites `lastHumanActivity` with the
incoming message's own timestamp before evaluating base eligibility, so for
`now - msg.createdTimestamp < minUserGap` neither the directed nor the
organic path replies, whatever the rest of the state says. -/
theorem C9_triggering_message_blocks_itself (cfg : Config) (s0 : BotSt) (ch : Channel)
    (msg : Msg) (ext : Ext) (hbot : msg.authorIsBot = false) (hguild : msg.inGuild = true)
    (hadmin : ext.adminRes = AdminRes.notHandled)
    (hfresh : ext.now - msg.createdTimestamp < cfg.userGapMs) :
    (handleMessage cfg s0 ch msg ext).sent = none := by
  have hcan : canEvenConsiderSpeaking cfg (handlerPre cfg s0 ch msg ext.now) ch
      (jsOrInt ((handlerPre cfg s0 ch msg ext.now).sleep.lastHumanActivity ch.id)
        msg.createdTimestamp) ext.now = false := by
    rw [handlerPre_lastHuman, jsOrInt_some_self]
    unfold canEvenConsiderSpeaking
    have hng : ¬ (cfg.userGapMs ≤ ext.now - msg.createdTimestamp) := by omega
    split
    · rfl
    · split
      · rfl
      · split
        · rfl
        · simp [hng]
  simp only [handleMessage, hbot, hguild, hadmin, Bool.false_or, Bool.not_true,
    Bool.false_eq_true, if_false, hcan, Bool.not_false, if_true]
  split <;> rfl

/-- Witness for C9: the concrete mention scenario of C2 evaluated 5ms after
the message's own timestamp produces no reply. -/
theorem C9_witness :
    (handleMessage cfgC2 stC2 chC2 msgC2mention { extC2 with now := 1000005 }).sent
      = none :=
  C9_triggering_message_blocks_itself cfgC2 stC2 chC2 msgC2mention
    { extC2 with now := 1000005 } rfl rfl rfl (by decide)

/-- C10: when wake messages are enabled, the announcement condition is
checked against the `lastHumanActivity` value the handler just overwrote
with the incoming message's own timestamp, so every human message whose
timestamp is within the announce window (and fresh enough that the channel
is not considered sleeping) triggers the announcement, for every prior
state — no prior-sleeping transition is required. -/
theorem C10_wake_fires_every_message (cfg : Config) (s0 : BotSt) (ch : Channel) (msg : Msg)
    (ext : Ext) (hbot : msg.authorIsBot = false) (hguild : msg.inGuild = true)
    (hadmin : ext.adminRes = AdminRes.notHandled) (hen : cfg.wakeMsgEnabled = true)
    (hawake : ext.now - msg.createdTimestamp < cfg.sleepAfterMin * 60000)
    (hwin : ext.now - msg.createdTimestamp ≤ cfg.wakeAnnounceSec * 1000) :
    (handleMessage cfg s0 ch msg ext).wakeAnnounced = true := by
  have hsleep : isChannelSleeping (handlerPre cfg s0 ch msg ext.now).sleep ch.id
      cfg.sleepAfterMin ext.now = false := by
    unfold isChannelSleeping
    rw [handlerPre_lastHuman, jsOrInt_some_zero]
    simp only [decide_eq_false_iff_not]
    omega
  have hann : maybeAnnounceWake cfg (handlerPre cfg s0 ch msg ext.now) ch ext.now = true := by
    unfold maybeAnnounceWake
    rw [handlerPre_lastHuman]
    simp [hen, jsOrInt_some_zero]
    omega
  simp only [handleMessage, hbot, hguild, hadmin, Bool.false_or, Bool.not_true,
    Bool.false_eq_true, if_false, hsleep, Bool.not_false, if_true, hann]
  repeat' split
  all_goals rfl

/-- C2: directed-address fast path. For every directed event (mention,
keyword, reply-to-self or linger, as computed by `directedToRoxi`), the
reply decision is gated by base eligibility and send permission only: the
decision is unchanged under arbitrary replacement of the momentum state
(`activityWindow`, `speakerSet`) that `conversationEligible` reads, and it
succeeds exactly when base eligibility, send permission, a free lock, a
non-empty generated reply and a successful send line up. On the concrete
two-speaker channel (below the organic threshold of 3) the mention event
replies while the otherwise-identical non-mention event does not. -/
theorem C2_directed_fast_path :
    (∀ (cfg : Config) (s0 : BotSt) (ch : Channel) (msg : Msg) (ext : Ext)
        (W : Nat → List ActEntry) (K : Nat → List Nat),
        msg.authorIsBot = false → msg.inGuild = true →
        ext.adminRes = AdminRes.notHandled →
        directedToRoxi cfg (handlerPre cfg s0 ch msg ext.now) ch msg ext.now = true →
        ((handleMessage cfg
            { s0 with sleep := { s0.sleep with activityWindow := W, speakerSet := K } }
            ch msg ext).sent = (handleMessage cfg s0 ch msg ext).sent
         ∧ ((handleMessage cfg s0 ch msg ext).sent.isSome = true ↔
            (canEvenConsiderSpeaking cfg (handlerPre cfg s0 ch msg ext.now) ch
               msg.createdTimestamp ext.now = true
             ∧ ext.canSend = true ∧ s0.inFlight ch.id = false
             ∧ genNonempty ext.genReply = true ∧ sendOkB ext.sendResult = true))))
    ∧ (handleMessage cfgC2 stC2 chC2 msgC2mention extC2).sent
        = some ⟨Path.directed, 42⟩
    ∧ (handleMessage cfgC2 stC2 chC2 msgC2plain extC2).sent = none := by
  refine ⟨?_, ?_, ?_⟩
  · intro cfg s0 ch msg ext W K hbot hguild hadmin hdir
    have hcea : canEvenConsiderSpeaking cfg
        (handlerPre cfg
          { s0 with sleep := { s0.sleep with activityWindow := W, speakerSet := K } }
          ch msg ext.now) ch msg.createdTimestamp ext.now
        = canEvenConsiderSpeaking cfg (handlerPre cfg s0 ch msg ext.now) ch
            msg.createdTimestamp ext.now := by
      apply canEven_congr
      · rw [handlerPre_hardMute, handlerPre_hardMute]
      · rw [handlerPre_lastReply, handlerPre_lastReply]
      · rw [handlerPre_lastHuman, handlerPre_lastHuman]
    have hdirm : directedToRoxi cfg
        (handlerPre cfg
          { s0 with sleep := { s0.sleep with activityWindow := W, speakerSet := K } }
          ch msg ext.now) ch msg ext.now = true := by
      rw [directedToRoxi_congr cfg _ (handlerPre cfg s0 ch msg ext.now) ch msg ext.now
        (congrFun (handlerPre_sleepSwap_recent cfg s0 W K ch msg ext.now) ch.id)
        (by rw [handlerPre_lastRoxiId, handlerPre_lastRoxiId])]
      exact hdir
    constructor
    · rw [directed_sent_eq cfg _ ch msg ext hbot hguild hadmin hdirm,
        directed_sent_eq cfg s0 ch msg ext hbot hguild hadmin hdir, hcea]
    · rw [directed_sent_eq cfg s0 ch msg ext hbot hguild hadmin hdir]
      by_cases hc : canEvenConsiderSpeaking cfg (handlerPre cfg s0 ch msg ext.now) ch
          msg.createdTimestamp ext.now = true
      · by_cases hs : ext.canSend = true
        · by_cases hf : s0.inFlight ch.id = true
          · simp [hc, hs, hf]
          · cases hg : ext.genReply with
            | error e => simp [hc, hs, hf, hg, genNonempty, sendOkB, attemptVal]
            | ok r =>
              by_cases ht : trimStr r = ""
              · simp [hc, hs, hf, hg, ht, genNonempty, sendOkB, attemptVal]
              · cases hsr : ext.sendResult with
                | error e =>
                  simp [hc, hs, hf, hg, ht, hsr, genNonempty, sendOkB, attemptVal]
                | ok id =>
                  simp [hc, hs, hf, hg, ht, hsr, genNonempty, sendOkB, attemptVal]
        · simp [hc, hs]
      · simp [hc]
  · decide
  · decide

/-- Witness for C10: with wake messages enabled, a message arriving 50ms
after its own timestamp in a long-awake channel still triggers the
announcement. -/
theorem C10_witness :
    (handleMessage { cfgC2 with wakeMsgEnabled := true } stC2 chC2 msgC2mention
      { extC2 with now := 1000050 }).wakeAnnounced = true :=
  C10_wake_fires_every_message { cfgC2 with wakeMsgEnabled := true } stC2 chC2
    msgC2mention { extC2 with now := 1000050 } rfl rfl rfl rfl (by decide) (by decide)

/-! ## C4: window pruning -/

theorem record_window_bound (s : SleepSt) (chId uid : Nat) (ts wall lookbackMin : Int)
    (h0 : 0 ≤ lookbackMin) :
    ∀ e ∈ (recordActivity s chId uid ts wall lookbackMin).1,
      effTs ts wall - e.ts ≤ lookbackMin * 60000 := by
  intro e he
  unfold recordActivity at he
  simp only [List.mem_append, List.mem_filter, List.mem_singleton] at he
  rcases he with ⟨-, hkeep⟩ | rfl
  · simp only [decide_eq_true_eq] at hkeep
    omega
  · simp only
    omega

theorem record_preserves_sorted (s : SleepSt) (chId uid : Nat) (ts wall lookbackMin b : Int)
    (hs : winSorted s) (hb : winLe s b) (hbc : b ≤ effTs ts wall) :
    winSorted (recordActivity s chId uid ts wall lookbackMin).2
    ∧ winLe (recordActivity s chId uid ts wall lookbackMin).2 (effTs ts wall) := by
  constructor
  · intro c
    show List.Pairwise _ (if c = chId then _ else s.activityWindow c)
    by_cases hc : c = chId
    · rw [if_pos hc]
      rw [List.pairwise_append]
      refine ⟨List.Pairwise.sublist (List.filter_sublist _) (hs chId), ?_, ?_⟩
      · exact List.pairwise_singleton _ _
      · intro x hx y hy
        rw [List.mem_singleton] at hy
        subst hy
        have hxw : x ∈ s.activityWindow chId := List.mem_of_mem_filter hx
        have := hb chId x hxw
        show x.ts ≤ effTs ts wall
        omega
    · rw [if_neg hc]
      exact hs c
  · intro c e he
    have he2 : e ∈ (if c = chId then
        (s.activityWindow chId).filter (fun e => decide (effTs ts wall - lookbackMin * 60000 ≤ e.ts))
          ++ [⟨effTs ts wall, uid⟩]
        else s.activityWindow c) := he
    by_cases hc : c = chId
    · rw [if_pos hc] at he2
      rcases List.mem_append.1 he2 with hx | hx
      · have := hb chId e (List.mem_of_mem_filter hx)
        omega
      · rw [List.mem_singleton] at hx
        subst hx
        simp only
        omega
    · rw [if_neg hc] at he2
      have := hb c e he2
      omega

theorem applyCalls_sorted (lookbackMin : Int) :
    ∀ (calls : List RecCall) (s : SleepSt) (b : Int), winSorted s → winLe s b →
      List.Chain (fun x y : Int => x ≤ y) b (calls.map (fun c => effTs c.ts c.wall)) →
      winSorted (applyCalls s lookbackMin calls) := by
  intro calls
  induction calls with
  | nil =>
    intro s b hs hb hch
    simpa [applyCalls] using hs
  | cons c rest ih =>
    intro s b hs hb hch
    rw [List.map_cons, List.chain_cons] at hch
    have hrec := record_preserves_sorted s c.ch c.uid c.ts c.wall lookbackMin b hs hb hch.1
    exact ih (recordActivity s c.ch c.uid c.ts c.wall lookbackMin).2 (effTs c.ts c.wall)
      hrec.1 hrec.2 hch.2

/-- Counterexample to C4 as stated: with a 20-minute lookback, a call at
`ts = 1000000` followed by one at `ts = 2200000` retains the first entry at
age exactly `lookback` (violating the strict bound `now - ts < lookback`),
and an out-of-order pair of calls produces a non-monotone window. -/
theorem C4_counterexample :
    ¬ claimC4 20
    ∧ lastWindow 20 [⟨0, 1, 1000000, 1000000⟩] ⟨0, 2, 2200000, 2200000⟩
        = [⟨1000000, 1⟩, ⟨2200000, 2⟩]
    ∧ ¬ List.Pairwise (fun a b : ActEntry => a.ts ≤ b.ts)
        (lastWindow 20 [⟨0, 1, 1000000, 1000000⟩] ⟨0, 2, 500000, 500000⟩) := by
  refine ⟨?_, by decide, by decide⟩
  intro h
  have h2 := (h [⟨0, 1, 1000000, 1000000⟩] ⟨0, 2, 2200000, 2200000⟩).2.1
    ⟨1000000, 1⟩ (by decide)
  revert h2
  decide

/-- C4 amended: the window returned by the latest call never contains an
entry older than `lookback` — with the CLOSED bound `now - entry.ts ≤
lookback` (an entry of age exactly `lookback` is retained, since the code
keeps `e.ts >= cutoff`); and the retained entries are monotonically
non-decreasing in timestamp provided the calls' effective timestamps are
themselves non-decreasing (out-of-order calls, which the dormancy monitor
documents as accepted, can produce a non-monotone window). -/
theorem C4_amended_window_pruning :
    (∀ (lookbackMin : Int), 0 ≤ lookbackMin →
      ∀ (calls : List RecCall) (c : RecCall),
        ∀ e ∈ lastWindow lookbackMin calls c,
          effTs c.ts c.wall - e.ts ≤ lookbackMin * 60000)
    ∧ (∀ (lookbackMin : Int) (calls : List RecCall),
        List.Chain' (fun x y : Int => x ≤ y) (calls.map (fun c => effTs c.ts c.wall)) →
        ∀ chId, List.Pairwise (fun a b : ActEntry => a.ts ≤ b.ts)
          ((applyCalls emptySleepSt lookbackMin calls).activityWindow chId)) := by
  constructor
  · intro L h0 calls c e he
    exact record_window_bound _ c.ch c.uid c.ts c.wall L h0 e he
  · intro L calls hch chId
    cases calls with
    | nil => simp [applyCalls, emptySleepSt]
    | cons c rest =>
      refine applyCalls_sorted L (c :: rest) emptySleepSt (effTs c.ts c.wall)
        (fun _ => List.Pairwise.nil) (fun _ e he => by simp [emptySleepSt] at he) ?_ chId
      rw [List.map_cons] at hch ⊢
      rw [List.chain_cons]
      exact ⟨le_refl _, hch⟩

/-! ## C3: the cooldown invariant across overlapping attempts -/

/-- Counterexample to C3 as stated: with `minReplyGap = 180000`, two
attempts whose eligibility checks both run at time 1000000 (when no reply
has been recorded) interleave so that the first sends at 1000100, releases
the lock, and the second — whose check is never re-run — acquires the lock
and sends at 1000200, only 100ms later. This is the schedule in which the
second attempt's check runs while the first is awaiting the generator, and
its lock acquisition happens after the first finishes. -/
theorem C3_counterexample : ¬ claimC3 180000 1000000 := by
  intro h
  have r1 := Relation.ReflTransGen.single
    (@Step.check 180000 (sysInit 1000000) 0 0 rfl (by decide))
  have r2 := r1.tail (@Step.check 180000 _ 1 0 (by decide) (by decide))
  have r3 := r2.tail
    (@Step.lockAcquire 180000 _ 0 ⟨0, false, 1000000, 0⟩ (by decide) rfl (by decide))
  have r4 := r3.tail (@Step.tick 180000 _ 100 (by decide))
  have r5 := r4.tail (@Step.sendOk 180000 _ 0 ⟨0, true, 1000000, 0⟩ (by decide) rfl)
  have r6 := r5.tail
    (@Step.lockAcquire 180000 _ 1 ⟨0, false, 1000000, 0⟩ (by decide) rfl (by decide))
  have r7 := r6.tail (@Step.tick 180000 _ 100 (by decide))
  have r8 := r7.tail (@Step.sendOk 180000 _ 1 ⟨0, true, 1000000, 0⟩ (by decide) rfl)
  have hb := h _ r8 [] [] [] 0 1000100 1000200 (by decide)
  omega

/-- C3 amended: every successful send is performed by an attempt holding
the per-channel lock, and occurs at least `minReplyGap` after the cooldown
timestamp that attempt's eligibility check observed. Consequently, after a
send at time `T`, no attempt whose eligibility check observes `T` (i.e.
checks after the bookkeeping of that send) can send before `T +
minReplyGap`; the original claim fails only for overlapping attempts whose
check precedes the earlier send (see the counterexample). -/
theorem C3_amended_cooldown (gap t0 : Int) (s s2 : Sys)
    (hreach : SysReaches gap (sysInit t0) s) (hstep : Step gap s s2) :
    ∀ ch t, s2.sends = s.sends ++ [(ch, t)] →
      ∃ i a, s.atts i = some a ∧ a.ch = ch ∧ a.locked = true ∧ a.obs + gap ≤ t := by
  intro ch t heq
  have hinv := sysInv_reaches hreach
  cases hstep with
  | tick d hd =>
    exfalso
    have hlen := congrArg List.length heq
    simp at hlen
  | check i ch2 hfresh helig =>
    exfalso
    have hlen := congrArg List.length heq
    simp at hlen
  | lockAcquire i a hatt hwait hfree =>
    exfalso
    have hlen := congrArg List.length heq
    simp at hlen
  | lockDrop i a hatt hwait hheld =>
    exfalso
    have hlen := congrArg List.length heq
    simp at hlen
  | abort i a hatt hlock =>
    exfalso
    have hlen := congrArg List.length heq
    simp at hlen
  | sendOk i a hatt hlock =>
    have heq2 : s.sends ++ [(a.ch, s.time)] = s.sends ++ [(ch, t)] := heq
    have h3 := List.append_cancel_left heq2
    injection h3 with h5 h6
    injection h5 with h5a h5b
    rcases hinv i a hatt with ⟨hi1, hi2⟩
    exact ⟨i, a, hatt, h5a, hlock, by omega⟩

/-- Witness for the amended C3: from the reachable two-step system (check,
then lock acquisition) a send step at time 1000000 satisfies the bound with
observed cooldown timestamp 0 and gap 180000. -/
theorem C3_amended_cooldown_witness :
    ∃ i a, c3w2.atts i = some a ∧ a.ch = 0 ∧ a.locked = true
      ∧ a.obs + 180000 ≤ 1000000 := by
  have r1 : Step 180000 c3w0 c3w1 := Step.check c3w0 0 0 rfl (by decide)
  have r2 : Step 180000 c3w1 c3w2 :=
    Step.lockAcquire c3w1 0 ⟨0, false, 1000000, 0⟩ rfl rfl rfl
  exact C3_amended_cooldown 180000 1000000 c3w2 _
    ((Relation.ReflTransGen.single r1).tail r2)
    (Step.sendOk c3w2 0 ⟨0, true, 1000000, 0⟩ rfl rfl) 0 1000000 rfl

end Roxi
